import Mathlib

/-!
Verification development for the EclipseInsight URL shortener.

The frontend definitions below are shallow embeddings of the TypeScript in
`frontend/src/` (the SWR hooks in `hooks/useUrls.ts`, the API client
`lib/api.ts`, and the validators in `lib/utils.ts`).  The Python backend is
not part of the source tree, so the backend operations (shorten, redirect,
soft delete, listing, rate limiting, bulk delete, authentication guard) are
modelled from the specification; each such definition carries a doc comment
starting with "Modelled from the spec:".
-/

namespace EclipseInsight

/-! ### Frontend data model (frontend/src/lib/api.ts, frontend/src/types/index.ts) -/

/-- Embedding of the `AIAnalysis` / `AIAnalysisData` interface. -/
structure AIAnalysisData where
  tags : List String
  summary : Option String
  suggested_alias : Option String
  is_toxic : Bool
  analyzed : Bool
  analyzed_at : Option String
  error : Option String
deriving DecidableEq

/-- Embedding of the `URLResponse` / `ShortURL` interface returned by the API client. -/
structure URLResponse where
  id : String
  short_code : String
  short_url : String
  original_url : String
  clicks : Nat
  created_at : String
  expiration : Option String
  preview_title : Option String
  preview_description : Option String
  preview_image : Option String
  ai : Option AIAnalysisData
deriving DecidableEq

/-- Embedding of `ReferrerData`. -/
structure ReferrerData where
  referrer : String
  count : Nat
deriving DecidableEq

/-- Embedding of `CountryData`. -/
structure CountryData where
  country : String
  count : Nat
deriving DecidableEq

/-- Embedding of `DeviceData`. -/
structure DeviceData where
  device : String
  count : Nat
deriving DecidableEq

/-- Embedding of `TimeSeriesData`. -/
structure TimeSeriesData where
  date : String
  count : Nat
deriving DecidableEq

/-- Embedding of the `URLStats` interface. -/
structure URLStats where
  short_code : String
  original_url : String
  total_clicks : Nat
  clicks_today : Nat
  clicks_this_week : Nat
  top_referrers : List ReferrerData
  clicks_by_country : List CountryData
  clicks_by_device : List DeviceData
  clicks_over_time : List TimeSeriesData
deriving DecidableEq

/-! ### Frontend fetchers (frontend/src/hooks/useUrls.ts)

The hooks read the access token from `localStorage` (modelled as an
`Option String`, `none` for a missing key) and throw
`new Error("Not authenticated")` before any network call when the token is
absent.  In JavaScript `if (!token) throw ...` also fires on the empty
string, so a stored empty token behaves like a missing one.  Each embedded
fetcher returns the thrown-or-returned result together with a flag telling
whether the network call was made. -/

/-- Result of a frontend fetcher run: the value or thrown error message, and
whether the underlying network request was issued. -/
structure FetchTrace (α : Type) where
  result : Except String α
  networkCalled : Bool

/-- Embedding of `fetchUrls` (hooks/useUrls.ts lines 7-11): check the stored
token, then call `urlApi.list(token)`. -/
def fetchUrls (storedToken : Option String)
    (listCall : String → Except String (List URLResponse)) :
    FetchTrace (List URLResponse) :=
  match storedToken with
  | none => ⟨Except.error "Not authenticated", false⟩
  | some token =>
    if token = "" then ⟨Except.error "Not authenticated", false⟩
    else ⟨listCall token, true⟩

/-- Embedding of `fetchUrlStats` (hooks/useUrls.ts lines 13-17): check the
stored token, then call `urlApi.stats(shortCode, token)`. -/
def fetchUrlStats (storedToken : Option String) (shortCode : String)
    (statsCall : String → String → Except String URLStats) :
    FetchTrace URLStats :=
  match storedToken with
  | none => ⟨Except.error "Not authenticated", false⟩
  | some token =>
    if token = "" then ⟨Except.error "Not authenticated", false⟩
    else ⟨statsCall shortCode token, true⟩

/-- Observable outcome of one `deleteUrl` call (hooks/useUrls.ts lines 30-51):
the final SWR cache for key "urls", the returned-or-thrown result, the cache
contents right after the optimistic `mutate`, and whether the DELETE request
was issued. -/
structure DeleteOutcome where
  cache : Option (List URLResponse)
  result : Except String Unit
  optimisticCache : Option (List URLResponse)
  networkCalled : Bool

/-- Embedding of `deleteUrl` (hooks/useUrls.ts lines 30-51).  `data` is the
SWR snapshot captured by the hook, `serverDelete` the outcome of
`urlApi.delete`, and `revalidated` the list the revalidation fetch returns
after a successful delete. -/
def deleteUrl (storedToken : Option String) (data : Option (List URLResponse))
    (shortCode : String) (serverDelete : Except String Unit)
    (revalidated : List URLResponse) : DeleteOutcome :=
  match storedToken with
  | none => ⟨data, Except.error "Not authenticated", data, false⟩
  | some token =>
    if token = "" then ⟨data, Except.error "Not authenticated", data, false⟩
    else
      let previousUrls := data
      let optimistic := data.map (fun l => l.filter (fun u => u.short_code != shortCode))
      match serverDelete with
      | Except.ok _ => ⟨some revalidated, Except.ok (), optimistic, true⟩
      | Except.error e => ⟨previousUrls, Except.error e, optimistic, true⟩

/-! ### apiRequest (frontend/src/lib/api.ts lines 87-112) -/

/-- Model of a JSON response body as far as `apiRequest` inspects it: the
optional string `detail` field (`none` covers both an absent and a null
field). -/
structure ParsedBody where
  detail : Option String
deriving DecidableEq

/-- Model of the `fetch` response: its HTTP status and the parse result of
`response.json()` (`none` when the body is not parseable JSON). -/
structure HttpResponse where
  status : Nat
  parsed : Option ParsedBody
deriving DecidableEq

/-- The browser `response.ok` property: status in the range 200-299. -/
def respOk (r : HttpResponse) : Bool :=
  decide (200 ≤ r.status) && decide (r.status < 300)

/-- The message thrown on a non-ok response:
`error.detail || "An error occurred"` after
`response.json().catch(() => ({ detail: "An error occurred" }))`.  In
JavaScript the empty string is falsy, so an empty `detail` also falls back
to the default message. -/
def errorDetailMessage : Option ParsedBody → String
  | none => "An error occurred"
  | some b =>
    match b.detail with
    | none => "An error occurred"
    | some s => if s = "" then "An error occurred" else s

/-- How an `apiRequest` call can fail: the explicit `Error` thrown on a
non-ok status, or the rejection of `response.json()` on an ok response with
an unparseable body. -/
inductive ApiFailure where
  | statusError (msg : String)
  | parseError
deriving DecidableEq

/-- Embedding of `apiRequest` (lib/api.ts lines 87-112): on a non-ok response
throw `Error(error.detail || "An error occurred")`; on an ok response return
the parsed JSON body. -/
def apiRequest (r : HttpResponse) : Except ApiFailure ParsedBody :=
  if respOk r then
    match r.parsed with
    | some b => Except.ok b
    | none => Except.error ApiFailure.parseError
  else
    Except.error (ApiFailure.statusError (errorDetailMessage r.parsed))

/-! ### isValidUrl (frontend/src/lib/utils.ts lines 345-353)

`isValidUrl` relies on the WHATWG `new URL(...)` constructor.  The model
below captures the part of that constructor the function observes: scheme
extraction (an ASCII letter followed by letters, digits, `+`, `-`, `.`,
terminated by a colon, lowercased into the `protocol` property), and the
requirement that special schemes other than `file` have a non-empty host. -/

/-- ASCII letter test used by the scheme start state of the URL parser. -/
def isAsciiAlpha (c : Char) : Bool :=
  (decide ('a' ≤ c) && decide (c ≤ 'z')) || (decide ('A' ≤ c) && decide (c ≤ 'Z'))

/-- Characters allowed after the first character of a URL scheme. -/
def isSchemeChar (c : Char) : Bool :=
  isAsciiAlpha c || c.isDigit || c == '+' || c == '-' || c == '.'

/-- Scans a scheme up to the terminating colon; returns the scheme characters
and the remainder, or `none` when no colon-terminated scheme is present. -/
def takeScheme : List Char → List Char → Option (List Char × List Char)
  | [], _ => none
  | c :: rest, acc =>
    if c = ':' then some (acc.reverse, rest)
    else if isSchemeChar c then takeScheme rest (c :: acc)
    else none

/-- The parsed URL as far as `isValidUrl` inspects it: the `protocol`
property (lowercased scheme plus colon) and the remainder of the input. -/
structure URLRecord where
  protocol : String
  rest : String
deriving DecidableEq

/-- Special schemes of the WHATWG URL standard. -/
def specialScheme (s : String) : Bool :=
  s == "http" || s == "https" || s == "ws" || s == "wss" || s == "ftp" || s == "file"

/-- Drops the leading slashes before the host of a special-scheme URL. -/
def dropSlashes : List Char → List Char
  | [] => []
  | c :: rest => if c = '/' then dropSlashes rest else c :: rest

/-- Model of the WHATWG `new URL(input)` constructor on an absolute input, to
the depth `isValidUrl` observes it: fails without a colon-terminated scheme
starting with an ASCII letter, and fails for a special scheme other than
`file` whose host part is empty; otherwise yields the lowercased `protocol`. -/
def parseURL (s : String) : Option URLRecord :=
  match takeScheme s.toList [] with
  | none => none
  | some (schemeChars, rest) =>
    match schemeChars with
    | [] => none
    | c :: _ =>
      if isAsciiAlpha c then
        let scheme := String.mk (schemeChars.map Char.toLower)
        if specialScheme scheme && scheme != "file" then
          if (dropSlashes rest).isEmpty then none
          else some ⟨scheme ++ ":", String.mk rest⟩
        else some ⟨scheme ++ ":", String.mk rest⟩
      else none

/-- Embedding of `isValidUrl` (lib/utils.ts lines 345-353): falsy input is
rejected, then `new URL(url)` is attempted and the protocol compared against
`http:` and `https:`; a parse failure is caught and yields `false`. -/
def isValidUrl (url : String) : Bool :=
  if url = "" then false
  else
    match parseURL url with
    | some urlObj => urlObj.protocol == "http:" || urlObj.protocol == "https:"
    | none => false

/-! ### Backend model

The FastAPI backend (`backend/app/`) is absent from the source tree; only its
README, TODO and the frontend client survive.  The definitions below are
therefore modelled from the specification (spec.md sections 3, 5, 7, 8 and
the README endpoint table), not translated from code. -/

/-- Modelled from the spec: outcome of the AI service call for a shorten
request — either a parsed analysis (tags, summary, suggested alias, toxicity
flag) or a failed call with its error string.  The backend `services/ai.py`
is missing from the source tree. -/
inductive AIResult where
  | analysis (tags : List String) (summary : Option String)
      (suggested_alias : Option String) (is_toxic : Bool)
  | failure (err : String)
deriving DecidableEq

/-- Modelled from the spec: the stored `ShortURL` entity (spec.md section 3),
with the soft-delete flag and the AI fields including the analyzed flag and
stored error string.  The backend `models/url.py` is missing from the source
tree. -/
structure ShortURL where
  id : Nat
  owner : Nat
  original_url : String
  short_code : String
  clicks : Nat
  is_deleted : Bool
  tags : List String
  summary : Option String
  suggested_alias : Option String
  is_toxic : Bool
  analyzed : Bool
  ai_error : Option String
deriving DecidableEq

/-- Modelled from the spec: a `ClickLog` record of one redirect traversal
(spec.md section 3 and glossary). -/
structure ClickLog where
  short_code : String
  timestamp : Nat
deriving DecidableEq

/-- Modelled from the spec: the persistent state — stored short URLs and the
click log. -/
structure Store where
  urls : List ShortURL
  clickLogs : List ClickLog
deriving DecidableEq

/-- The short-code uniqueness invariant of spec.md section 3. -/
def codesUnique (s : Store) : Prop :=
  (s.urls.map ShortURL.short_code).Nodup

instance : DecidablePred codesUnique := fun s =>
  List.nodupDecidable (s.urls.map ShortURL.short_code)

/-- Lookup predicate for the redirect handler: the record matches the code
and is not hidden by the soft-delete flag. -/
def isLive (u : ShortURL) (code : String) : Bool :=
  u.short_code == code && !u.is_deleted

/-- Modelled from the spec: the database lookup behind the redirect handler;
soft-deleted URLs are excluded from redirects (spec.md section 8). -/
def lookupActive (urls : List ShortURL) (code : String) : Option ShortURL :=
  urls.find? (fun u => isLive u code)

/-- Result of `GET /a short code`: a 302 redirect to the target, or 404. -/
inductive RedirectResult where
  | redirect302 (target : String)
  | notFound404
deriving DecidableEq

/-- Modelled from the spec: the redirect handler ("lookup + 302 + async click
log", spec.md section 2; README: `GET /a short code` redirects with click
logging).  The backend `api/redirect.py` is missing from the source tree. -/
def redirect (s : Store) (code : String) (t : Nat) : RedirectResult × Store :=
  match lookupActive s.urls code with
  | some u =>
    (RedirectResult.redirect302 u.original_url,
     { s with clickLogs := s.clickLogs ++ [⟨code, t⟩] })
  | none => (RedirectResult.notFound404, s)

/-- True when a stored record (deleted or not) already holds the code; the
database unique constraint sees soft-deleted rows too. -/
def codeTaken (urls : List ShortURL) (code : String) : Bool :=
  urls.any (fun u => u.short_code == code)

/-- The record the shorten endpoint stores for a given AI outcome: a failed
AI call degrades gracefully into analyzed = false with the error string
stored, while a successful analysis fills the AI fields. -/
def mkShortURL (i owner : Nat) (url code : String) (ai : AIResult) : ShortURL :=
  match ai with
  | AIResult.failure e =>
    ⟨i, owner, url, code, 0, false, [], none, none, false, false, some e⟩
  | AIResult.analysis tags summary suggested is_toxic =>
    ⟨i, owner, url, code, 0, false, tags, summary, suggested, is_toxic, true, none⟩

/-- Modelled from the spec: `POST /api/v1/urls/shorten` (README; TODO.md task
5 "Reject if toxic"; spec.md section 7 on graceful AI degradation; section 3
on the unique short-code constraint).  The backend `api/urls.py` and
`services/url.py` are missing from the source tree. -/
def shorten (s : Store) (owner : Nat) (url code : String) (ai : AIResult) :
    Except String (ShortURL × Store) :=
  if codeTaken s.urls code then Except.error "short code already in use"
  else
    match ai with
    | AIResult.analysis tags summary suggested is_toxic =>
      if is_toxic then Except.error "toxic content rejected"
      else
        let u := mkShortURL s.urls.length owner url code
          (AIResult.analysis tags summary suggested is_toxic)
        Except.ok (u, { s with urls := s.urls ++ [u] })
    | AIResult.failure e =>
      let u := mkShortURL s.urls.length owner url code (AIResult.failure e)
      Except.ok (u, { s with urls := s.urls ++ [u] })

/-- Modelled from the spec: `DELETE /api/v1/urls/{short_code}` is a soft
delete — the flag hides the record rather than removing data (spec.md
sections 3 and 8). -/
def softDelete (s : Store) (code : String) : Store :=
  { s with
    urls := s.urls.map (fun u =>
      if u.short_code == code then { u with is_deleted := true } else u) }

/-- Modelled from the spec: `GET /api/v1/urls` lists the current user's URLs
with soft-deleted ones excluded (README; spec.md section 8). -/
def listUrls (s : Store) (owner : Nat) : List ShortURL :=
  s.urls.filter (fun u => u.owner == owner && !u.is_deleted)

/-- Modelled from the spec: the bearer token attached to a request, as the
JWT guard classifies it — valid for some user, invalid, or absent.  The
backend `core/security.py` is missing from the source tree. -/
inductive AuthToken where
  | valid (userId : Nat)
  | invalid
  | missing
deriving DecidableEq

/-- Modelled from the spec: the guard on every protected endpoint
("unauthenticated requests to protected endpoints are rejected", spec.md
section 8; section 7 maps auth failures to a 401 JSON error).  Only a valid
token reaches the handler; otherwise the request is rejected with 401 and no
data is produced. -/
def protectedEndpoint {α : Type} (t : AuthToken) (handler : Nat → α) :
    Except Nat α :=
  match t with
  | AuthToken.valid userId => Except.ok (handler userId)
  | AuthToken.invalid => Except.error 401
  | AuthToken.missing => Except.error 401

/-- Per-client state of the fixed-window rate counter: the start of the
current window and the number of requests counted in it. -/
structure RateState where
  windowStart : Nat
  count : Nat
deriving DecidableEq

/-- Modelled from the spec: one request through the fixed-window rate limiter
("rate limiting is a fixed-window/token-bucket counter in the cache keyed by
client identity", spec.md section 5; README configures e.g. 10/minute).  A
request past the window end opens a fresh window; the counter is bumped and
the request is answered 429 once the count exceeds the configured limit,
200 otherwise. -/
def rateStep (limit windowLen : Nat) (st : RateState) (now : Nat) :
    Nat × RateState :=
  let st1 := if st.windowStart + windowLen ≤ now then RateState.mk now 0 else st
  let newCount := st1.count + 1
  if limit < newCount then (429, RateState.mk st1.windowStart newCount)
  else (200, RateState.mk st1.windowStart newCount)

/-- Runs the rate limiter over a sequence of request times for one client,
returning the HTTP status answered to each request. -/
def rateRun (limit windowLen : Nat) (st : RateState) : List Nat → List Nat
  | [] => []
  | t :: ts =>
    let r := rateStep limit windowLen st t
    r.1 :: rateRun limit windowLen r.2 ts

/-- Per-item entry of the bulk-delete response. -/
structure BulkItemResult where
  short_code : String
  success : Bool
deriving DecidableEq

/-- One item of the bulk delete: a live URL owned by the requester is soft
deleted and reported as a success; anything else is reported as a per-item
failure without aborting the rest. -/
def bulkDeleteStep (owner : Nat) (acc : List BulkItemResult × Store)
    (code : String) : List BulkItemResult × Store :=
  match lookupActive acc.2.urls code with
  | some u =>
    if u.owner == owner then
      (acc.1 ++ [⟨code, true⟩], softDelete acc.2 code)
    else (acc.1 ++ [⟨code, false⟩], acc.2)
  | none => (acc.1 ++ [⟨code, false⟩], acc.2)

/-- Modelled from the spec: `POST /api/v1/urls/bulk-delete` — "Delete
multiple URLs at once (max 100)" with "partial-success reporting" (README;
spec.md section 7: bulk-delete returns a per-item success/failure list).
Requests listing more than 100 URLs are rejected with a validation error;
otherwise every submitted code gets exactly one per-item entry. -/
def bulkDelete (s : Store) (owner : Nat) (codes : List String) :
    Except Nat (List BulkItemResult × Store) :=
  if 100 < codes.length then Except.error 422
  else Except.ok (codes.foldl (bulkDeleteStep owner) ([], s))

/-- Stores reachable from the empty database through the modelled backend
operations. -/
inductive Reachable : Store → Prop where
  | init : Reachable ⟨[], []⟩
  | stepShorten {s s' : Store} {owner : Nat} {url code : String} {ai : AIResult}
      {u : ShortURL} : Reachable s →
      shorten s owner url code ai = Except.ok (u, s') → Reachable s'
  | stepRedirect {s : Store} {code : String} {t : Nat} : Reachable s →
      Reachable (redirect s code t).2
  | stepSoftDelete {s : Store} {code : String} : Reachable s →
      Reachable (softDelete s code)

/-! ### Helper lemmas -/

/-- Soft delete only toggles the flag, so the stored short codes are
untouched. -/
theorem softDelete_map_short_code (s : Store) (code : String) :
    (softDelete s code).urls.map ShortURL.short_code =
      s.urls.map ShortURL.short_code := by
  show (s.urls.map _).map _ = _
  induction s.urls with
  | nil => rfl
  | cons u rest ih =>
    simp only [List.map_cons, ih]
    cases h : u.short_code == code <;> simp [h]

/-- The redirect handler never changes the stored URLs. -/
theorem redirect_urls (s : Store) (code : String) (t : Nat) :
    (redirect s code t).2.urls = s.urls := by
  unfold redirect
  cases lookupActive s.urls code <;> rfl

/-- The duplicate check of the shorten endpoint, characterised. -/
theorem codeTaken_eq_false_iff (urls : List ShortURL) (code : String) :
    codeTaken urls code = false ↔ code ∉ urls.map ShortURL.short_code := by
  rw [← Bool.not_eq_true]
  simp [codeTaken, List.any_eq_true, List.mem_map]

/-- Anatomy of a successful shorten call: the code was free, the new record
carries it, and it is appended to the stored list. -/
theorem shorten_ok_inv {s s' : Store} {owner : Nat} {url code : String}
    {ai : AIResult} {u : ShortURL}
    (h : shorten s owner url code ai = Except.ok (u, s')) :
    codeTaken s.urls code = false ∧ u.short_code = code ∧
      s'.urls = s.urls ++ [u] := by
  cases ai with
  | failure e =>
    simp only [shorten] at h
    by_cases hc : codeTaken s.urls code = true
    · rw [if_pos hc] at h
      exact Except.noConfusion h
    · rw [if_neg hc] at h
      simp only [Except.ok.injEq, Prod.mk.injEq] at h
      obtain ⟨hu, hs⟩ := h
      subst hu
      subst hs
      exact ⟨Bool.not_eq_true _ ▸ hc, rfl, rfl⟩
  | analysis tags summary suggested is_toxic =>
    simp only [shorten] at h
    by_cases hc : codeTaken s.urls code = true
    · rw [if_pos hc] at h
      exact Except.noConfusion h
    · rw [if_neg hc] at h
      cases is_toxic with
      | true =>
        rw [if_pos rfl] at h
        exact Except.noConfusion h
      | false =>
        rw [if_neg (by simp)] at h
        simp only [Except.ok.injEq, Prod.mk.injEq] at h
        obtain ⟨hu, hs⟩ := h
        subst hu
        subst hs
        exact ⟨Bool.not_eq_true _ ▸ hc, rfl, rfl⟩

/-- A successful shorten call keeps the short codes duplicate free. -/
theorem shorten_preserves_unique {s s' : Store} {owner : Nat}
    {url code : String} {ai : AIResult} {u : ShortURL}
    (hok : shorten s owner url code ai = Except.ok (u, s'))
    (ih : codesUnique s) : codesUnique s' := by
  obtain ⟨hfree, hcode, hurls⟩ := shorten_ok_inv hok
  unfold codesUnique at *
  rw [hurls, List.map_append, List.nodup_append]
  refine ⟨ih, List.nodup_singleton _, ?_⟩
  intro a ha hb
  simp only [List.map_cons, List.map_nil, List.mem_singleton] at hb
  rw [hb, hcode] at ha
  exact (codeTaken_eq_false_iff s.urls code).mp hfree ha

/-- Every store reachable through the modelled operations satisfies the
unique-short-code invariant of spec.md section 3. -/
theorem reachable_codesUnique {s : Store} (h : Reachable s) : codesUnique s := by
  induction h with
  | init => simp [codesUnique]
  | stepShorten _ hok ih => exact shorten_preserves_unique hok ih
  | stepRedirect _ ih =>
    unfold codesUnique at *
    rw [redirect_urls]
    exact ih
  | stepSoftDelete _ ih =>
    unfold codesUnique at *
    rw [softDelete_map_short_code]
    exact ih

/-- Lookup misses when no stored record (deleted or not) has the code. -/
theorem lookupActive_of_not_mem {urls : List ShortURL} {code : String}
    (h : code ∉ urls.map ShortURL.short_code) :
    lookupActive urls code = none := by
  induction urls with
  | nil => rfl
  | cons v rest ih =>
    simp only [List.map_cons, List.mem_cons, not_or] at h
    obtain ⟨h1, h2⟩ := h
    unfold lookupActive at ih ⊢
    rw [List.find?_cons_of_neg _ (by simp [isLive]; intro he; exact absurd he.symm h1)]
    exact ih h2

/-- With unique codes, the redirect lookup resolves a live stored record to
itself. -/
theorem lookupActive_mem_live {urls : List ShortURL} {u : ShortURL}
    (hn : (urls.map ShortURL.short_code).Nodup) (hm : u ∈ urls)
    (hl : u.is_deleted = false) :
    lookupActive urls u.short_code = some u := by
  induction urls with
  | nil => cases hm
  | cons v rest ih =>
    simp only [List.map_cons, List.nodup_cons] at hn
    rcases List.mem_cons.mp hm with rfl | hmem
    · unfold lookupActive
      rw [List.find?_cons_of_pos _ (by simp [isLive, hl])]
    · have hvne : ¬ (v.short_code = u.short_code) := by
        intro hEq
        exact hn.1 (hEq ▸ List.mem_map_of_mem ShortURL.short_code hmem)
      unfold lookupActive at ih ⊢
      rw [List.find?_cons_of_neg _ (by simp [isLive]; intro he; exact absurd he hvne)]
      exact ih hn.2 hmem

/-- With unique codes, the redirect lookup misses a soft-deleted stored
record: the flag hides it and no other record can hold its code. -/
theorem lookupActive_mem_deleted {urls : List ShortURL} {u : ShortURL}
    (hn : (urls.map ShortURL.short_code).Nodup) (hm : u ∈ urls)
    (hd : u.is_deleted = true) :
    lookupActive urls u.short_code = none := by
  induction urls with
  | nil => cases hm
  | cons v rest ih =>
    simp only [List.map_cons, List.nodup_cons] at hn
    rcases List.mem_cons.mp hm with rfl | hmem
    · unfold lookupActive
      rw [List.find?_cons_of_neg _ (by simp [isLive, hd])]
      exact lookupActive_of_not_mem hn.1
    · have hvne : ¬ (v.short_code = u.short_code) := by
        intro hEq
        exact hn.1 (hEq ▸ List.mem_map_of_mem ShortURL.short_code hmem)
      unfold lookupActive at ih ⊢
      rw [List.find?_cons_of_neg _ (by simp [isLive]; intro he; exact absurd he hvne)]
      exact ih hn.2 hmem

/-- The rate limiter answers one status per request. -/
theorem rateRun_length (limit windowLen : Nat) (st : RateState) (ts : List Nat) :
    (rateRun limit windowLen st ts).length = ts.length := by
  induction ts generalizing st with
  | nil => rfl
  | cons t ts ih => simp [rateRun, ih]

/-- One rate-limiter step inside the current window: no reset happens, the
counter is bumped, and the status depends only on the bumped count. -/
theorem rateStep_in_window (limit windowLen w k t : Nat)
    (ht : t < w + windowLen) :
    rateStep limit windowLen ⟨w, k⟩ t =
      (if limit < k + 1 then 429 else 200, ⟨w, k + 1⟩) := by
  have hlt : ¬ (w + windowLen ≤ t) := by omega
  simp only [rateStep, if_neg hlt]
  split <;> rfl

/-- Statuses inside a single window, for an arbitrary starting count: the
i-th request (0-indexed) is answered 429 exactly when the count has passed
the limit. -/
theorem rateRun_getD_in_window (limit windowLen w : Nat) (ts : List Nat)
    (k i : Nat) (hin : ∀ t ∈ ts, t < w + windowLen) (hi : i < ts.length) :
    (rateRun limit windowLen ⟨w, k⟩ ts).getD i 0 =
      if limit ≤ k + i then 429 else 200 := by
  induction ts generalizing k i with
  | nil => simp at hi
  | cons t ts ih =>
    rw [rateRun]
    rw [rateStep_in_window limit windowLen w k t (hin t (List.mem_cons_self t ts))]
    cases i with
    | zero =>
      simp only [List.getD_cons_zero, Nat.add_zero]
      by_cases h : limit ≤ k
      · rw [if_pos (show limit < k + 1 by omega), if_pos h]
      · rw [if_neg (show ¬ limit < k + 1 by omega), if_neg h]
    | succ i =>
      simp only [List.getD_cons_succ]
      rw [ih (k + 1) i (fun t ht => hin t (List.mem_cons_of_mem _ ht))
        (by simpa using hi)]
      by_cases h : limit ≤ k + (i + 1)
      · rw [if_pos (by omega), if_pos h]
      · rw [if_neg (by omega), if_neg h]

/-- Each bulk-delete item appends exactly one per-item entry carrying the
submitted short code, whatever its success flag. -/
theorem bulkDeleteStep_codes (owner : Nat) (acc : List BulkItemResult × Store)
    (code : String) :
    (bulkDeleteStep owner acc code).1.map BulkItemResult.short_code =
      acc.1.map BulkItemResult.short_code ++ [code] := by
  unfold bulkDeleteStep
  cases lookupActive acc.2.urls code with
  | none => simp
  | some u => cases h : u.owner == owner <;> simp [h]

/-- The bulk-delete fold reports one entry per submitted code, in order. -/
theorem bulkFold_codes (owner : Nat) (codes : List String)
    (acc : List BulkItemResult × Store) :
    ((codes.foldl (bulkDeleteStep owner) acc).1.map BulkItemResult.short_code) =
      acc.1.map BulkItemResult.short_code ++ codes := by
  induction codes generalizing acc with
  | nil => simp
  | cons c cs ih =>
    rw [List.foldl_cons, ih, bulkDeleteStep_codes]
    simp

/-! ### Concrete example stores -/

/-- A successful non-toxic AI analysis used by the concrete examples. -/
def exAnalyzed : AIResult := AIResult.analysis ["news"] none none false

/-- A store holding one live short URL, as produced by one shorten call on
the empty database. -/
def exStore1 : Store :=
  ⟨[mkShortURL 0 7 "https://example.com/article" "abc123" exAnalyzed], []⟩

/-- The same store after soft-deleting its only URL. -/
def exStore2 : Store := softDelete exStore1 "abc123"

/-- The one-URL example store is reachable from the empty database. -/
theorem exStore1_reachable : Reachable exStore1 := by
  have h : shorten ⟨[], []⟩ 7 "https://example.com/article" "abc123" exAnalyzed =
      Except.ok
        (mkShortURL 0 7 "https://example.com/article" "abc123" exAnalyzed,
          exStore1) := rfl
  exact Reachable.stepShorten Reachable.init h

/-- The soft-deleted example store is reachable from the empty database. -/
theorem exStore2_reachable : Reachable exStore2 :=
  Reachable.stepSoftDelete exStore1_reachable

/-! ### Claim theorems -/

/-- C1 (counterexample): the claim quantifies over every stored ShortURL, but
a soft-deleted record is still stored (the flag hides the record rather than
removing data) and its code answers 404, not a 302 to its original URL.  The
store below is reachable through the modelled operations, holds exactly one
record with code abc123 and original URL https://example.com/article, and the
redirect for abc123 is not a 302 to that URL. -/
theorem stored_url_redirect_counterexample :
    Reachable exStore2 ∧
    exStore2.urls = [⟨0, 7, "https://example.com/article", "abc123", 0, true,
      ["news"], none, none, false, true, none⟩] ∧
    (redirect exStore2 "abc123" 0).1 = RedirectResult.notFound404 ∧
    RedirectResult.notFound404 ≠
      RedirectResult.redirect302 "https://example.com/article" :=
  ⟨exStore2_reachable, by decide, by decide, by decide⟩

/-- C1 (amended): in every reachable store the short codes are unique, and
for every stored ShortURL that is not soft-deleted, a GET of its short code
returns a 302 to exactly its original URL and appends one click-log entry
for the traversal. -/
theorem redirect_resolves_live_short_code {s : Store} (hr : Reachable s)
    (u : ShortURL) (t : Nat) (hm : u ∈ s.urls) (hl : u.is_deleted = false) :
    codesUnique s ∧
    redirect s u.short_code t =
      (RedirectResult.redirect302 u.original_url,
       { s with clickLogs := s.clickLogs ++ [⟨u.short_code, t⟩] }) := by
  have hn := reachable_codesUnique hr
  refine ⟨hn, ?_⟩
  unfold redirect
  rw [lookupActive_mem_live hn hm hl]

/-- C1 (witness): the amended theorem applied to the one-URL example store. -/
theorem redirect_resolves_live_short_code_witness :
    codesUnique exStore1 ∧
    redirect exStore1 "abc123" 5 =
      (RedirectResult.redirect302 "https://example.com/article",
       ⟨exStore1.urls, [⟨"abc123", 5⟩]⟩) :=
  redirect_resolves_live_short_code exStore1_reachable
    (mkShortURL 0 7 "https://example.com/article" "abc123" exAnalyzed) 5
    (by decide) rfl

/-- C2: a shorten request whose AI analysis flags the content as toxic is
rejected — the call returns an error, so no ShortURL and no new store are
produced for it. -/
theorem toxic_analysis_blocks_shorten (s : Store) (owner : Nat)
    (url code : String) (tags : List String)
    (summary suggested : Option String) :
    ∃ msg, shorten s owner url code
      (AIResult.analysis tags summary suggested true) = Except.error msg := by
  unfold shorten
  by_cases hc : codeTaken s.urls code = true
  · rw [if_pos hc]
    exact ⟨_, rfl⟩
  · rw [if_neg hc]
    exact ⟨"toxic content rejected", rfl⟩

/-- C3: in every reachable store a soft-deleted ShortURL is excluded from
every listing and its code does not resolve through the redirect endpoint,
while every live ShortURL stays listed for its owner and stays resolvable;
soft delete keeps the record count unchanged, hiding rather than removing
data. -/
theorem soft_delete_hides_from_listing_and_redirect {s : Store}
    (hr : Reachable s) (u : ShortURL) (owner t : Nat) (code : String)
    (hm : u ∈ s.urls) :
    (u.is_deleted = true →
      u ∉ listUrls s owner ∧
        (redirect s u.short_code t).1 = RedirectResult.notFound404) ∧
    (u.is_deleted = false →
      u ∈ listUrls s u.owner ∧
        (redirect s u.short_code t).1 =
          RedirectResult.redirect302 u.original_url) ∧
    (softDelete s code).urls.length = s.urls.length := by
  have hn := reachable_codesUnique hr
  refine ⟨fun hd => ⟨?_, ?_⟩, fun hl => ⟨?_, ?_⟩, ?_⟩
  · intro hmem
    rw [listUrls, List.mem_filter] at hmem
    simp [hd] at hmem
  · unfold redirect
    rw [lookupActive_mem_deleted hn hm hd]
  · rw [listUrls, List.mem_filter]
    exact ⟨hm, by simp [hl]⟩
  · unfold redirect
    rw [lookupActive_mem_live hn hm hl]
  · simp [softDelete]

/-- C3 (witness): the deleted record of the example store is hidden from its
owner's listing and its code answers 404. -/
theorem soft_delete_hides_witness :
    (⟨0, 7, "https://example.com/article", "abc123", 0, true,
        ["news"], none, none, false, true, none⟩ : ShortURL) ∉
      listUrls exStore2 7 ∧
    (redirect exStore2 "abc123" 0).1 = RedirectResult.notFound404 :=
  (soft_delete_hides_from_listing_and_redirect exStore2_reachable
    ⟨0, 7, "https://example.com/article", "abc123", 0, true,
      ["news"], none, none, false, true, none⟩ 7 0 "zz"
    (by decide)).1 rfl

/-- C4: when the AI analysis call fails, the shorten request (for a free
code) still succeeds: the ShortURL is created with its analyzed flag false
and the error string stored in the AI fields, and it is appended to the
store. -/
theorem ai_failure_degrades_gracefully (s : Store) (owner : Nat)
    (url code e : String) (hfree : codeTaken s.urls code = false) :
    shorten s owner url code (AIResult.failure e) =
      Except.ok (mkShortURL s.urls.length owner url code (AIResult.failure e),
        { s with urls :=
            s.urls ++ [mkShortURL s.urls.length owner url code
              (AIResult.failure e)] }) ∧
    (mkShortURL s.urls.length owner url code (AIResult.failure e)).analyzed =
      false ∧
    (mkShortURL s.urls.length owner url code (AIResult.failure e)).ai_error =
      some e := by
  refine ⟨?_, rfl, rfl⟩
  unfold shorten
  rw [if_neg (by simp [hfree])]

/-- C4 (witness): a failed AI call on the empty store still creates the
link, unanalyzed and carrying the error string. -/
theorem ai_failure_degrades_gracefully_witness :
    shorten ⟨[], []⟩ 3 "https://x.io/p" "c1" (AIResult.failure "timeout") =
      Except.ok
        (⟨0, 3, "https://x.io/p", "c1", 0, false, [], none, none, false,
          false, some "timeout"⟩,
         ⟨[⟨0, 3, "https://x.io/p", "c1", 0, false, [], none, none, false,
           false, some "timeout"⟩], []⟩) ∧
    (⟨0, 3, "https://x.io/p", "c1", 0, false, [], none, none, false, false,
      some "timeout"⟩ : ShortURL).analyzed = false ∧
    (⟨0, 3, "https://x.io/p", "c1", 0, false, [], none, none, false, false,
      some "timeout"⟩ : ShortURL).ai_error = some "timeout" :=
  ai_failure_degrades_gracefully ⟨[], []⟩ 3 "https://x.io/p" "c1" "timeout"
    (by decide)

/-- C5: a request to a protected endpoint without a valid token is rejected
with 401 and no protected data is returned; and in the frontend client every
fetch without a stored access token (missing, or empty and hence falsy)
throws the error "Not authenticated" with no network call made. -/
theorem unauthenticated_requests_rejected (t : AuthToken)
    (handler : Nat → List ShortURL) (storedToken : Option String)
    (shortCode : String)
    (listCall : String → Except String (List URLResponse))
    (statsCall : String → String → Except String URLStats)
    (data : Option (List URLResponse)) (serverDelete : Except String Unit)
    (revalidated : List URLResponse)
    (ht : ∀ userId, t ≠ AuthToken.valid userId)
    (htok : storedToken = none ∨ storedToken = some "") :
    protectedEndpoint t handler = Except.error 401 ∧
    fetchUrls storedToken listCall =
      ⟨Except.error "Not authenticated", false⟩ ∧
    fetchUrlStats storedToken shortCode statsCall =
      ⟨Except.error "Not authenticated", false⟩ ∧
    (deleteUrl storedToken data shortCode serverDelete revalidated).result =
      Except.error "Not authenticated" ∧
    (deleteUrl storedToken data shortCode serverDelete
      revalidated).networkCalled = false := by
  have hp : protectedEndpoint t handler = Except.error 401 := by
    cases t with
    | valid userId => exact absurd rfl (ht userId)
    | invalid => rfl
    | missing => rfl
  rcases htok with rfl | rfl
  · exact ⟨hp, rfl, rfl, rfl, rfl⟩
  · exact ⟨hp, rfl, rfl, rfl, rfl⟩

/-- C5 (witness): a missing bearer token and an empty localStorage. -/
theorem unauthenticated_requests_rejected_witness :
    protectedEndpoint AuthToken.missing (fun _ => ([] : List ShortURL)) =
      Except.error 401 ∧
    fetchUrls none (fun _ => Except.ok []) =
      ⟨Except.error "Not authenticated", false⟩ ∧
    fetchUrlStats none "abc123" (fun _ _ => Except.error "unused") =
      ⟨Except.error "Not authenticated", false⟩ ∧
    (deleteUrl none none "abc123" (Except.ok ()) []).result =
      Except.error "Not authenticated" ∧
    (deleteUrl none none "abc123" (Except.ok ()) []).networkCalled = false :=
  unauthenticated_requests_rejected AuthToken.missing
    (fun _ => []) none "abc123" (fun _ => Except.ok [])
    (fun _ _ => Except.error "unused") none (Except.ok ()) []
    (fun _ h => AuthToken.noConfusion h) (Or.inl rfl)

/-- C6: for one client inside one window of the fixed-window limiter, the
requests below the configured threshold are answered 200 (never 429), and
once the count reaches the threshold every further request in the window is
answered 429; one status is answered per request. -/
theorem rate_limit_statuses_in_window (limit windowLen w : Nat)
    (ts : List Nat) (i : Nat) (hin : ∀ t ∈ ts, t < w + windowLen)
    (hi : i < ts.length) :
    (rateRun limit windowLen ⟨w, 0⟩ ts).length = ts.length ∧
    (rateRun limit windowLen ⟨w, 0⟩ ts).getD i 0 =
      (if limit ≤ i then 429 else 200) := by
  refine ⟨rateRun_length limit windowLen ⟨w, 0⟩ ts, ?_⟩
  have h := rateRun_getD_in_window limit windowLen w ts 0 i hin hi
  simpa using h

/-- C6 (witness): with a threshold of 2 per window, the third request of the
window is answered 429 and the first is answered 200. -/
theorem rate_limit_statuses_in_window_witness :
    (rateRun 2 60 ⟨0, 0⟩ [0, 1, 2, 3]).getD 2 0 = 429 ∧
    (rateRun 2 60 ⟨0, 0⟩ [0, 1, 2, 3]).getD 0 0 = 200 :=
  ⟨(rate_limit_statuses_in_window 2 60 0 [0, 1, 2, 3] 2 (by decide)
      (by decide)).2,
   (rate_limit_statuses_in_window 2 60 0 [0, 1, 2, 3] 0 (by decide)
      (by decide)).2⟩

/-- C7: a bulk-delete of at most 100 short codes returns one per-item entry
for each submitted code, in order (partial failures do not abort the rest),
and a request listing more than 100 codes is not accepted. -/
theorem bulk_delete_per_item_results (s : Store) (owner : Nat)
    (codes : List String) :
    (codes.length ≤ 100 →
      match bulkDelete s owner codes with
      | Except.ok (results, _) =>
        results.map BulkItemResult.short_code = codes
      | Except.error _ => False) ∧
    (100 < codes.length → bulkDelete s owner codes = Except.error 422) := by
  constructor
  · intro hle
    rw [bulkDelete, if_neg (by omega)]
    have h := bulkFold_codes owner codes ([], s)
    simpa using h
  · intro hgt
    rw [bulkDelete, if_pos hgt]

/-- C7 (witness): a two-item bulk delete on the empty store reports one
per-item failure entry for each submitted code. -/
theorem bulk_delete_per_item_results_witness :
    (match bulkDelete ⟨[], []⟩ 0 ["a", "b"] with
     | Except.ok (results, _) =>
       results.map BulkItemResult.short_code = ["a", "b"]
     | Except.error _ => False) :=
  (bulk_delete_per_item_results ⟨[], []⟩ 0 ["a", "b"]).1 (by decide)

/-- C8: isValidUrl accepts exactly the non-empty strings that parse as a URL
whose protocol is http: or https:, and rejects the empty string, unparseable
strings, and URLs of any other scheme such as ftp: or javascript:. -/
theorem isValidUrl_spec (u : String) :
    (isValidUrl u = true ↔
      u ≠ "" ∧ ∃ r, parseURL u = some r ∧
        (r.protocol = "http:" ∨ r.protocol = "https:")) ∧
    isValidUrl "" = false ∧
    isValidUrl "https://example.com" = true ∧
    isValidUrl "http://example.com/a?b=c" = true ∧
    isValidUrl "ftp://example.com" = false ∧
    isValidUrl "javascript:alert(1)" = false ∧
    isValidUrl "not a url" = false := by
  refine ⟨?_, by decide, by decide, by decide, by decide, by decide, by decide⟩
  unfold isValidUrl
  by_cases h : u = ""
  · simp [h]
  · rw [if_neg h]
    cases hp : parseURL u with
    | none => simp [h]
    | some r => simp [h, Bool.or_eq_true, beq_iff_eq]

/-- Example cached entry used by the deleteUrl witness. -/
def exResp : URLResponse :=
  ⟨"id1", "abc123", "http://sho.rt/abc123", "https://example.com/article",
    4, "2026-01-09", none, none, none, none, none⟩

/-- C9: with a stored token, deleteUrl first optimistically removes the
entry with the given short code from the cached list, and when the server
delete fails it restores the cache to exactly the list held before the call
and rethrows the error, so on failure the observable cached state is
unchanged. -/
theorem deleteUrl_rollback_on_failure (token : String) (h : token ≠ "")
    (data : Option (List URLResponse)) (shortCode e : String)
    (revalidated : List URLResponse) :
    deleteUrl (some token) data shortCode (Except.error e) revalidated =
      ⟨data, Except.error e,
       data.map (fun l => l.filter (fun u => u.short_code != shortCode)),
       true⟩ := by
  rw [show deleteUrl (some token) data shortCode (Except.error e)
        revalidated =
      if token = "" then
        ⟨data, Except.error "Not authenticated", data, false⟩
      else
        ⟨data, Except.error e,
         data.map (fun l => l.filter (fun u => u.short_code != shortCode)),
         true⟩ from rfl, if_neg h]

/-- C9 (witness): a failed delete of the only cached entry rolls the cache
back to the original one-element list after the optimistic removal. -/
theorem deleteUrl_rollback_on_failure_witness :
    deleteUrl (some "tok") (some [exResp]) "abc123" (Except.error "HTTP 500")
      [] =
      ⟨some [exResp], Except.error "HTTP 500", some [], true⟩ :=
  deleteUrl_rollback_on_failure "tok" (by decide) (some [exResp]) "abc123"
    "HTTP 500" []

/-- The precise non-ok behaviour of apiRequest. -/
theorem apiRequest_not_ok {r : HttpResponse} (h : respOk r = false) :
    apiRequest r =
      Except.error (ApiFailure.statusError (errorDetailMessage r.parsed)) := by
  rw [apiRequest, if_neg (by simp [h])]

/-- The precise ok behaviour of apiRequest on a parseable body. -/
theorem apiRequest_ok {r : HttpResponse} {b : ParsedBody}
    (h : respOk r = true) (hb : r.parsed = some b) :
    apiRequest r = Except.ok b := by
  rw [apiRequest, if_pos h, hb]

/-- An ok response never produces the thrown status Error. -/
theorem apiRequest_ok_no_statusError {r : HttpResponse}
    (h : respOk r = true) (msg : String) :
    apiRequest r ≠ Except.error (ApiFailure.statusError msg) := by
  rw [apiRequest, if_pos h]
  cases r.parsed <;> simp

/-- C10 (counterexample): a non-ok response whose body is parseable JSON
containing a detail field holding the empty string: the thrown message is
the fallback "An error occurred", not the detail field, because the empty
string is falsy in JavaScript. -/
theorem apiRequest_empty_detail_counterexample :
    apiRequest ⟨400, some ⟨some ""⟩⟩ =
      Except.error (ApiFailure.statusError "An error occurred") ∧
    "An error occurred" ≠ "" :=
  ⟨rfl, by decide⟩

/-- C10 (amended): apiRequest throws the status Error exactly when the
status is outside 200-299; the thrown message is the detail field when the
body parses as JSON with a non-empty string detail, and the fallback
"An error occurred" when the detail is empty, absent, or the body
unparseable; an ok response returns its parsed JSON body and never throws
for the status. -/
theorem apiRequest_error_spec (r : HttpResponse) :
    ((∃ msg, apiRequest r = Except.error (ApiFailure.statusError msg)) ↔
      ¬ (200 ≤ r.status ∧ r.status < 300)) ∧
    (¬ (200 ≤ r.status ∧ r.status < 300) →
      apiRequest r =
        Except.error (ApiFailure.statusError (errorDetailMessage r.parsed))) ∧
    (∀ b d, r.parsed = some b → b.detail = some d → d ≠ "" →
      errorDetailMessage r.parsed = d) ∧
    (∀ b, r.parsed = some b → (b.detail = none ∨ b.detail = some "") →
      errorDetailMessage r.parsed = "An error occurred") ∧
    (r.parsed = none → errorDetailMessage r.parsed = "An error occurred") ∧
    (∀ b, (200 ≤ r.status ∧ r.status < 300) → r.parsed = some b →
      apiRequest r = Except.ok b) := by
  have hiff : respOk r = true ↔ (200 ≤ r.status ∧ r.status < 300) := by
    simp [respOk]
  have hfalse : ¬ (200 ≤ r.status ∧ r.status < 300) → respOk r = false := by
    intro hrange
    rw [← Bool.not_eq_true, hiff]
    exact hrange
  refine ⟨⟨?_, ?_⟩, ?_, ?_, ?_, ?_, ?_⟩
  · rintro ⟨msg, hmsg⟩ hrange
    exact apiRequest_ok_no_statusError (hiff.mpr hrange) msg hmsg
  · intro hrange
    exact ⟨_, apiRequest_not_ok (hfalse hrange)⟩
  · intro hrange
    exact apiRequest_not_ok (hfalse hrange)
  · intro b d hb hd hne
    simp [hb, errorDetailMessage, hd, hne]
  · intro b hb hcase
    rcases hcase with hnone | hempty
    · simp [hb, errorDetailMessage, hnone]
    · simp [hb, errorDetailMessage, hempty]
  · intro hp
    simp [hp, errorDetailMessage]
  · intro b hrange hb
    exact apiRequest_ok (hiff.mpr hrange) hb

/-- C10 (witness): a 404 with a parseable body carrying a non-empty detail
throws exactly that detail as the message. -/
theorem apiRequest_error_spec_witness :
    apiRequest ⟨404, some ⟨some "boom"⟩⟩ =
      Except.error (ApiFailure.statusError
        (errorDetailMessage (some ⟨some "boom"⟩))) ∧
    errorDetailMessage (some ⟨some "boom"⟩) = "boom" :=
  ⟨(apiRequest_error_spec ⟨404, some ⟨some "boom"⟩⟩).2.1 (by decide),
   (apiRequest_error_spec ⟨404, some ⟨some "boom"⟩⟩).2.2.1 ⟨some "boom"⟩
     "boom" rfl rfl (by decide)⟩

end EclipseInsight
